import Mathlib

/-!
# Verification of the SAT (summed-area table) driver `src/src/sat.cu`

The repository's visible source is a thin driver (`sat.cu`) over the
gpufilter engine.  The driver itself (`sat`, `main`) is embedded directly
from the source; the engine entry points it calls (`ref_sat_cpu`,
`sat_gpu`, `check_cpu_reference`, the border policy) are declared in
headers that are not part of the visible source, so they are modelled
from the specification, over exact rational arithmetic in place of
IEEE `float`.
-/

namespace GpuFilter

/-- Border type enumeration, from the spec §3: one of
{zero, clamp, repeat, reflect}.  `repeatB` models `repeat`
(the word `repeat` is reserved in Lean). -/
inductive BorderType where
  | zero : BorderType
  | clamp : BorderType
  | repeatB : BorderType
  | reflect : BorderType
deriving DecidableEq, Repr

/-- Index used by the `reflect` border policy: the coordinate is mirrored
at the boundary with no value duplicated at the edge, i.e. the extension
is periodic with period `2*W - 2` and indices past `W-1` fold back.
Degenerate widths (`W ≤ 1`) map everything to index 0. -/
def reflectIndex (W i : ℤ) : ℤ :=
  if W ≤ 1 then 0
  else
    let j := i % (2 * W - 2)
    if j < W then j else 2 * W - 2 - j

/-- Modelled from the spec: the Border Policy (§4.1), shared by the
reference and accelerated engines but defined in headers outside the
visible source.  Given a 1D pixel array and a (possibly out of range)
integer coordinate, it returns the sample value to use:
in-range coordinates return the stored pixel; otherwise
zero → 0, clamp → nearest in-range coordinate, repeat → coordinate
wrapped modulo `W`, reflect → coordinate mirrored at the boundary with
no value duplicated at the edge. -/
def lookAt (bt : BorderType) (pix : List ℚ) (i : ℤ) : ℚ :=
  let W : ℤ := pix.length
  if 0 ≤ i ∧ i < W then pix.getD i.toNat 0
  else
    match bt with
    | BorderType.zero => 0
    | BorderType.clamp => pix.getD (max 0 (min (W - 1) i)).toNat 0
    | BorderType.repeatB => pix.getD (i % W).toNat 0
    | BorderType.reflect => pix.getD (reflectIndex W i).toNat 0

/-- Modelled from the spec: the sequential first-order recursive filter
recurrence of the Reference Engine (§4.2), specialized to filter order
R = 1 (the SAT case, the only order the driver instantiates).  Given
weights `a0` (feedforward) and `b1` (feedback) and the previous output
`yprev`, each output is `y[i] = a0*x[i] - b1*y[i-1]`: the feedback
coefficient enters subtractively, so that the SAT weights {1, −1} set by
the driver yield the summed-area recurrence `y[i] = x[i] + y[i-1]`,
matching the spec's definition of the SAT (glossary) and its known
scenario (§8: all-ones image → output (r+1)·(c+1)). -/
def recfilter1 (a0 b1 : ℚ) : ℚ → List ℚ → List ℚ
  | _, [] => []
  | yprev, x :: xs =>
      let y := a0 * x - b1 * yprev
      y :: recfilter1 a0 b1 y xs

/-- The index list `[0, 1, ..., n-1]`. -/
def idxs : ℕ → List ℕ
  | 0 => []
  | n + 1 => idxs n ++ [n]

/-- Column `j` of a row-major image (missing entries read as 0; the
driver only ever supplies rectangular `width × height` buffers). -/
def column (img : List (List ℚ)) (j : ℕ) : List ℚ :=
  img.map (fun r => r.getD j 0)

/-- Transpose of a row-major image whose rows have length `w`. -/
def transposeW (w : ℕ) (img : List (List ℚ)) : List (List ℚ) :=
  (idxs w).map (column img)

/-- Modelled from the spec: the Reference Engine `ref_sat_cpu` (§4.2),
declared in `alg0_cpu.h` outside the visible source, with border
extent 0 (the configuration exercised by the claims): each row is
filtered left to right starting from state 0, then each column of the
result is filtered top to bottom starting from state 0. -/
def ref_sat_cpu (a0 b1 : ℚ) (width height : ℕ) (img : List (List ℚ)) :
    List (List ℚ) :=
  transposeW height
    ((transposeW width (img.map (recfilter1 a0 b1 0))).map (recfilter1 a0 b1 0))

/-- Fuel-indexed decomposition of a 1D line into tiles of side `T`
(§4.3 Tile Decomposer).  Fuel at least the list length guarantees tiles
of exactly `T` pixels (last tile possibly shorter); the fuel-exhausted
fallback returns the remaining line as one tile, so concatenating the
tiles always reproduces the line. -/
def toTilesF : ℕ → ℕ → List ℚ → List (List ℚ)
  | 0, _, l => [l]
  | _, _, [] => []
  | fuel + 1, T, x :: xs =>
      (x :: xs.take (T - 1)) :: toTilesF fuel T (xs.drop (T - 1))

/-- Modelled from the spec: the Tile Decomposer (§4.3) on one line. -/
def toTiles (T : ℕ) (l : List ℚ) : List (List ℚ) :=
  toTilesF l.length T l

/-- Modelled from the spec: the Fix-up Stage's affine correction (§4.6)
for order R = 1.  Adding an incoming carry `c` to a tile whose local
output was computed from carry 0 changes the output at in-tile position
`i` by `(-b1)^(i+1) * c` (the tile's transfer map, determined solely by
the filter weights). -/
def fixup (b1 : ℚ) : ℚ → List ℚ → List ℚ
  | _, [] => []
  | c, y :: ys => (y + -b1 * c) :: fixup b1 (-b1 * c) ys

/-- The local outgoing carry of a tile (§4.4): for order R = 1 it is the
last local output value (0 for an empty tile). -/
def localCarry (L : List ℚ) : ℚ :=
  L.getLastD 0

/-- Modelled from the spec: the Carry Propagation Stage (§4.5) for order
R = 1.  Given the tiles' local outputs (computed from zero incoming
carry) and the line's initial state `c`, produces the true incoming
carry of every tile by composing the tiles' affine transfer maps in scan
order: the next tile's incoming carry is
`localCarry + (-b1)^tileLength * c`. -/
def incomingCarries (b1 : ℚ) : List (List ℚ) → ℚ → List ℚ
  | [], _ => []
  | L :: Ls, c =>
      c :: incomingCarries b1 Ls (localCarry L + (-b1) ^ L.length * c)

/-- Modelled from the spec: one full 1D pass of the accelerated engine
(§4.4–§4.6): decompose the line into tiles of side `T`, compute each
tile's local filter output independently from zero carry (Local Filter
Stage), propagate carries across tiles (Carry Propagation Stage), and
apply the affine fix-up per tile (Fix-up Stage). -/
def sat_gpu_1d (a0 b1 : ℚ) (T : ℕ) (line : List ℚ) : List ℚ :=
  let tiles := toTiles T line
  let locals := tiles.map (recfilter1 a0 b1 0)
  let cs := incomingCarries b1 locals 0
  (List.zipWith (fixup b1) cs locals).flatten

/-- Modelled from the spec: the accelerated engine `sat_gpu<false,R>`
(§4.4–§4.7), declared in `sat_gpu.cuh` outside the visible source, for
border extent 0: a row pass followed by a column pass of the tiled,
carry-propagated 1D filter (Transpose / Second-Pass Driver). -/
def sat_gpu (a0 b1 : ℚ) (T width height : ℕ) (img : List (List ℚ)) :
    List (List ℚ) :=
  transposeW height
    ((transposeW width (img.map (sat_gpu_1d a0 b1 T))).map (sat_gpu_1d a0 b1 T))

/-- One row of the image logically extended by `n` pixels on each side
according to the border policy (§4.3: border tiles' pixel values are
defined entirely by the Border Policy, never by stored data). -/
def extendRow (bt : BorderType) (n : ℕ) (row : List ℚ) : List ℚ :=
  (idxs (row.length + 2 * n)).map (fun j => lookAt bt row ((j : ℤ) - n))

/-- Modelled from the spec: the accelerated engine `sat_gpu<true,R>`
with border extent `border > 0` (§4.3): the image is logically extended
by `border` tiles of side 32 on every side, with the extension's content
given by the Border Policy; the tiled engine runs on the extension and
the region corresponding to the original image is written back. -/
def sat_gpu_bordered (a0 b1 : ℚ) (T width height : ℕ) (img : List (List ℚ))
    (border : ℕ) (bt : BorderType) : List (List ℚ) :=
  let n := 32 * border
  let ext := transposeW (height + 2 * n)
    ((transposeW (width + 2 * n) (img.map (extendRow bt n))).map (extendRow bt n))
  let out := sat_gpu a0 b1 T (width + 2 * n) (height + 2 * n) ext
  ((out.drop n).take height).map (fun r => (r.drop n).take width)

/-- Which `sat_gpu` instantiation the driver's `sat` dispatched. -/
inductive Dispatch where
  | noBorderPath : Dispatch
  | borderPath : Dispatch
deriving DecidableEq, Repr

/-- The driver's `sat` (src/src/sat.cu lines 62–77), embedded from the
source: if `border == 0` it calls `sat_gpu<false>` (without the border
type), else if `border > 0` it calls `sat_gpu<true>` with the border
count and type; otherwise it does nothing and the image buffer is left
unchanged.  The result records the (possibly unchanged) buffer and which
branch, if any, was dispatched; the function has no error outcome. -/
def sat (a0 b1 : ℚ) (T : ℕ) (h_img : List (List ℚ))
    (width height : ℕ) (runtimes : ℤ)
    (border : ℤ) (btype : BorderType) : List (List ℚ) × Option Dispatch :=
  if border = 0 then
    (sat_gpu a0 b1 T width height h_img, some Dispatch.noBorderPath)
  else if border > 0 then
    (sat_gpu_bordered a0 b1 T width height h_img border.toNat btype,
      some Dispatch.borderPath)
  else
    (h_img, none)

/-- Modelled from the spec: the Accuracy Checker loop (§4.8) of
`check_cpu_reference`, declared outside the visible source.  For each
(cpu, gpu) pixel pair it accumulates the running maximum of `|gpu-cpu|`
and, where `|cpu| > 0`, of `|gpu-cpu| / |cpu|`. -/
def check_loop : List (ℚ × ℚ) → ℚ → ℚ → ℚ × ℚ
  | [], me, mre => (me, mre)
  | (c, g) :: rest, me, mre =>
      let a := |g - c|
      check_loop rest (max me a) (if 0 < |c| then max mre (a / |c|) else mre)

/-- Modelled from the spec: `check_cpu_reference` (§4.8): compares the
reference and accelerated buffers pixel by pixel and reports the maximum
absolute error and the maximum relative error across the whole image,
starting both maxima from 0. -/
def check_cpu_reference (cpu gpu : List ℚ) : ℚ × ℚ :=
  check_loop (cpu.zip gpu) 0 0

/-- The driver's console output events (src/src/sat.cu lines 96–114):
the human-readable configuration from `print_info`, the
`[max-error] [max-relative-error]:` header, and the two error scalars. -/
inductive OutputEvent where
  | info : OutputEvent
  | header : OutputEvent
  | errors : ℚ → ℚ → OutputEvent
deriving DecidableEq, Repr

/-- The observable result of one driver run. -/
structure DriverRun where
  cpuOut : List (List ℚ)
  gpuOut : List (List ℚ)
  dispatched : Option Dispatch
  me : ℚ
  mre : ℚ
  output : List OutputEvent
  exitCode : ℤ
  wRef : ℚ × ℚ
  wSat : ℚ × ℚ
deriving Repr

/-- The driver's `main` (src/src/sat.cu lines 81–117), embedded from the
source: whatever weights `initial_setup` produced (`wInit`) are
overwritten with `w[0] = 1, w[1] = -1`; if `runtimes == 1` the
configuration is printed; the reference engine fills the cpu buffer and
`sat` the gpu buffer, both receiving the same weight vector;
`check_cpu_reference` produces the two error scalars; if `runtimes == 1`
the header is printed; the two error scalars are always printed; the
exit status is 0.  (The reference engine is modelled at border
extent 0, the configuration the claims exercise.) -/
def main_model (width height : ℕ) (cpu_img gpu_img : List (List ℚ))
    (runtimes border : ℤ)
    (btype : BorderType) (_wInit : ℚ × ℚ) : DriverRun :=
  let w : ℚ × ℚ := (1, -1)
  let preOut : List OutputEvent := if runtimes = 1 then [OutputEvent.info] else []
  let cpuOut := ref_sat_cpu w.1 w.2 width height cpu_img
  let satRes := sat w.1 w.2 32 gpu_img width height runtimes border btype
  let er := check_cpu_reference cpuOut.flatten satRes.1.flatten
  { cpuOut := cpuOut
    gpuOut := satRes.1
    dispatched := satRes.2
    me := er.1
    mre := er.2
    output := preOut ++ (if runtimes = 1 then [OutputEvent.header] else [])
        ++ [OutputEvent.errors er.1 er.2]
    exitCode := 0
    wRef := w
    wSat := w }

/-! ## Algorithm lemmas: the tiled engine refines the sequential filter -/

/-- The recursive filter is affine in its incoming state: starting the
recurrence from `c + d` rather than `c` changes the output exactly by
the fix-up transfer of `d`. -/
theorem recfilter1_affine (a0 b1 : ℚ) (xs : List ℚ) :
    ∀ c d : ℚ, recfilter1 a0 b1 (c + d) xs = fixup b1 d (recfilter1 a0 b1 c xs) := by
  induction xs with
  | nil => intro c d; rfl
  | cons x t ih =>
      intro c d
      simp only [recfilter1, fixup]
      have h : a0 * x - b1 * (c + d) = a0 * x - b1 * c + -b1 * d := by ring
      rw [h, ih]

/-- Special case of affinity: the true tile output is the zero-carry
local output corrected by the fix-up of the incoming carry
(§4.4's correctness invariant). -/
theorem recfilter1_zero_fixup (a0 b1 c : ℚ) (xs : List ℚ) :
    recfilter1 a0 b1 c xs = fixup b1 c (recfilter1 a0 b1 0 xs) := by
  have h := recfilter1_affine a0 b1 xs 0 c
  rwa [zero_add] at h

/-- The filter preserves the line length. -/
theorem recfilter1_length (a0 b1 : ℚ) (xs : List ℚ) :
    ∀ c : ℚ, (recfilter1 a0 b1 c xs).length = xs.length := by
  induction xs with
  | nil => intro c; rfl
  | cons x t ih => intro c; simp only [recfilter1, List.length_cons, ih]

/-- The filter's state after a tile (its last output, `getLastD` of the
incoming state for an empty tile) is affine in the incoming state, with
slope `(-b1) ^ length`: this is the carry-composition rule used by the
Carry Propagation Stage. -/
theorem recfilter1_getLastD (a0 b1 : ℚ) (t : List ℚ) :
    ∀ c : ℚ, (recfilter1 a0 b1 c t).getLastD c
      = (recfilter1 a0 b1 0 t).getLastD 0 + (-b1) ^ t.length * c := by
  induction t with
  | nil => intro c; simp [recfilter1]
  | cons x t ih =>
      intro c
      simp only [recfilter1, List.getLastD_cons, List.length_cons]
      rw [ih (a0 * x - b1 * c), ih (a0 * x - b1 * 0)]
      ring

/-- Splitting a line: filtering a concatenation equals filtering the
first part and continuing from its final state. -/
theorem recfilter1_append (a0 b1 : ℚ) (xs ys : List ℚ) :
    ∀ c : ℚ, recfilter1 a0 b1 c (xs ++ ys)
      = recfilter1 a0 b1 c xs
        ++ recfilter1 a0 b1 ((recfilter1 a0 b1 c xs).getLastD c) ys := by
  induction xs with
  | nil => intro c; rfl
  | cons x t ih =>
      intro c
      simp only [List.cons_append, recfilter1, List.getLastD_cons, List.append_eq]
      rw [ih]

/-- Core refinement lemma: for any decomposition of a line into tiles,
locally filtering every tile from zero carry, propagating the carries in
scan order starting from `c`, and fixing every tile up reproduces the
sequential filter of the whole line started at `c`. -/
theorem zipWith_fixup_incomingCarries (a0 b1 : ℚ) (tiles : List (List ℚ)) :
    ∀ c : ℚ,
      (List.zipWith (fixup b1)
        (incomingCarries b1 (tiles.map (recfilter1 a0 b1 0)) c)
        (tiles.map (recfilter1 a0 b1 0))).flatten
      = recfilter1 a0 b1 c tiles.flatten := by
  induction tiles with
  | nil => intro c; rfl
  | cons t ts ih =>
      intro c
      simp only [List.map_cons, incomingCarries, List.zipWith_cons_cons,
        List.flatten_cons]
      rw [ih, ← recfilter1_zero_fixup, recfilter1_append]
      have hstate : localCarry (recfilter1 a0 b1 0 t)
          + (-b1) ^ (recfilter1 a0 b1 0 t).length * c
          = (recfilter1 a0 b1 c t).getLastD c := by
        rw [recfilter1_getLastD, localCarry, recfilter1_length]
      rw [hstate]

/-- Reassembling the tiles of a line reproduces the line, for any fuel
and tile size (§8's idempotence of decomposition). -/
theorem toTilesF_flatten (T : ℕ) : ∀ (fuel : ℕ) (l : List ℚ),
    (toTilesF fuel T l).flatten = l := by
  intro fuel
  induction fuel with
  | zero => intro l; simp [toTilesF]
  | succ n ih =>
      intro l
      cases l with
      | nil => rfl
      | cons x xs =>
          simp only [toTilesF, List.flatten_cons, ih, List.cons_append,
            List.take_append_drop]

/-- Reassembling the Tile Decomposer's tiles reproduces the line. -/
theorem toTiles_flatten (T : ℕ) (l : List ℚ) : (toTiles T l).flatten = l :=
  toTilesF_flatten T l.length l

/-- The 1D accelerated pass (local filter + carry propagation + fix-up
over tiles of any side `T`) equals the sequential recursive filter. -/
theorem sat_gpu_1d_eq (a0 b1 : ℚ) (T : ℕ) (line : List ℚ) :
    sat_gpu_1d a0 b1 T line = recfilter1 a0 b1 0 line := by
  unfold sat_gpu_1d
  rw [zipWith_fixup_incomingCarries, toTiles_flatten]

/-- The 2D accelerated engine coincides with the sequential reference
engine: both are the row pass followed by the column pass, and each 1D
pass agrees by `sat_gpu_1d_eq`. -/
theorem sat_gpu_eq_ref (a0 b1 : ℚ) (T width height : ℕ) (img : List (List ℚ)) :
    sat_gpu a0 b1 T width height img = ref_sat_cpu a0 b1 width height img := by
  have h : sat_gpu_1d a0 b1 T = recfilter1 a0 b1 0 := funext (sat_gpu_1d_eq a0 b1 T)
  unfold sat_gpu ref_sat_cpu
  rw [h]

/-! ## Accuracy-checker lemmas -/

/-- The checker loop never decreases its running maxima. -/
theorem check_loop_acc_le (l : List (ℚ × ℚ)) :
    ∀ me mre : ℚ, me ≤ (check_loop l me mre).1 ∧ mre ≤ (check_loop l me mre).2 := by
  induction l with
  | nil => intro me mre; exact ⟨le_refl _, le_refl _⟩
  | cons p rest ih =>
      intro me mre
      obtain ⟨c, g⟩ := p
      simp only [check_loop]
      refine ⟨le_trans (le_max_left _ _) (ih _ _).1, ?_⟩
      refine le_trans ?_ (ih _ _).2
      by_cases h : 0 < |c|
      · simp only [if_pos h]; exact le_max_left _ _
      · simp only [if_neg h]; exact le_refl _

/-- Every pixel's absolute error is bounded by the first reported
scalar, and (where `|cpu| > 0`) its relative error by the second. -/
theorem check_loop_ub (l : List (ℚ × ℚ)) :
    ∀ me mre : ℚ, ∀ p ∈ l,
      |p.2 - p.1| ≤ (check_loop l me mre).1
      ∧ (0 < |p.1| → |p.2 - p.1| / |p.1| ≤ (check_loop l me mre).2) := by
  induction l with
  | nil => intro me mre p hp; cases hp
  | cons q rest ih =>
      intro me mre p hp
      obtain ⟨c, g⟩ := q
      rcases List.mem_cons.mp hp with h | h
      · subst h
        simp only [check_loop]
        constructor
        · exact le_trans (le_max_right _ _) (check_loop_acc_le rest _ _).1
        · intro hc
          refine le_trans ?_ (check_loop_acc_le rest _ _).2
          simp only [if_pos hc]
          exact le_max_right _ _
      · simp only [check_loop]
        exact ih _ _ p h

/-- Each reported scalar is either the starting accumulator or is
attained at some pixel of the list (with `|cpu| > 0` for the relative
one). -/
theorem check_loop_attain (l : List (ℚ × ℚ)) :
    ∀ me mre : ℚ,
      ((check_loop l me mre).1 = me
        ∨ ∃ p ∈ l, (check_loop l me mre).1 = |p.2 - p.1|)
      ∧ ((check_loop l me mre).2 = mre
        ∨ ∃ p ∈ l, 0 < |p.1|
            ∧ (check_loop l me mre).2 = |p.2 - p.1| / |p.1|) := by
  induction l with
  | nil => intro me mre; exact ⟨Or.inl rfl, Or.inl rfl⟩
  | cons q rest ih =>
      intro me mre
      obtain ⟨c, g⟩ := q
      simp only [check_loop]
      constructor
      · rcases (ih (max me |g - c|) _).1 with h | ⟨p, hp, hval⟩
        · rcases max_choice me |g - c| with hm | hm
          · exact Or.inl (h.trans hm)
          · exact Or.inr ⟨(c, g), List.mem_cons_self _ _, h.trans hm⟩
        · exact Or.inr ⟨p, List.mem_cons_of_mem _ hp, hval⟩
      · by_cases hc : 0 < |c|
        · rw [if_pos hc]
          rcases (ih (max me |g - c|) (max mre (|g - c| / |c|))).2
            with h | ⟨p, hp, hcp, hval⟩
          · rcases max_choice mre (|g - c| / |c|) with hm | hm
            · exact Or.inl (h.trans hm)
            · exact Or.inr ⟨(c, g), List.mem_cons_self _ _, hc, h.trans hm⟩
          · exact Or.inr ⟨p, List.mem_cons_of_mem _ hp, hcp, hval⟩
        · rw [if_neg hc]
          rcases (ih (max me |g - c|) mre).2 with h | ⟨p, hp, hcp, hval⟩
          · exact Or.inl h
          · exact Or.inr ⟨p, List.mem_cons_of_mem _ hp, hcp, hval⟩

/-- Comparing a buffer against itself leaves the accumulators unchanged
whenever they start non-negative. -/
theorem check_loop_zip_self (l : List ℚ) :
    ∀ me mre : ℚ, 0 ≤ me → 0 ≤ mre → check_loop (l.zip l) me mre = (me, mre) := by
  induction l with
  | nil => intro me mre _ _; rfl
  | cons c rest ih =>
      intro me mre hme hmre
      simp only [List.zip_cons_cons, check_loop, sub_self, abs_zero, zero_div,
        max_eq_left hme, max_eq_left hmre, if_pos, ite_self]
      exact ih me mre hme hmre

/-- The checker reports (0, 0) when the accelerated buffer equals the
reference buffer. -/
theorem check_cpu_reference_self (l : List ℚ) :
    check_cpu_reference l l = (0, 0) :=
  check_loop_zip_self l 0 0 (le_refl 0) (le_refl 0)

/-! ## Concrete scenario data -/

/-- The 4×4 all-ones input image of the spec's known scenario (§8). -/
def ones4 : List (List ℚ) :=
  List.replicate 4 (List.replicate 4 1)

/-- The expected SAT of the 4×4 all-ones image: entry (r,c) is
(r+1)·(c+1). -/
def satTable : List (List ℚ) :=
  [[1, 2, 3, 4], [2, 4, 6, 8], [3, 6, 9, 12], [4, 8, 12, 16]]

/-- Evaluation of the reference engine on the all-ones 4×4 image. -/
theorem ref_sat_cpu_ones4 : ref_sat_cpu 1 (-1) 4 4 ones4 = satTable := by
  norm_num [ref_sat_cpu, transposeW, idxs, column, recfilter1, ones4, satTable,
    List.replicate]

/-! ## Claims -/

/-- C1. For every image of finite sample values with width and height in
[1, 4096] and border extent 0, the accelerated SAT produced by `sat`
(via `sat_gpu`) agrees with the sequential reference SAT produced by
`ref_sat_cpu` on every pixel.  In this exact-rational embedding the two
outputs are identical, so the max absolute error reported by
`check_cpu_reference` is 0 — within any bound of the form
O(W·H·ε·max|value|). -/
theorem C1_sat_gpu_matches_reference (a0 b1 : ℚ) (img : List (List ℚ))
    (width height : ℕ) (runtimes : ℤ) (bt : BorderType)
    (hW : 1 ≤ width) (hW4 : width ≤ 4096)
    (hH : 1 ≤ height) (hH4 : height ≤ 4096) :
    (sat a0 b1 32 img width height runtimes 0 bt).1
        = ref_sat_cpu a0 b1 width height img
    ∧ check_cpu_reference (ref_sat_cpu a0 b1 width height img).flatten
        (sat a0 b1 32 img width height runtimes 0 bt).1.flatten = (0, 0) := by
  have hsat : (sat a0 b1 32 img width height runtimes 0 bt).1
      = sat_gpu a0 b1 32 width height img := by
    simp [sat]
  rw [hsat, sat_gpu_eq_ref]
  exact ⟨rfl, check_cpu_reference_self _⟩

/-- Witness for C1 at a concrete 2×2 image. -/
theorem C1_sat_gpu_matches_reference_witness :
    (1 ≤ 2 ∧ 2 ≤ 4096)
    ∧ ((sat 1 (-1) 32 [[1, 2], [3, 4]] 2 2 1 0 BorderType.zero).1
        = ref_sat_cpu 1 (-1) 2 2 [[1, 2], [3, 4]]
      ∧ check_cpu_reference (ref_sat_cpu 1 (-1) 2 2 [[1, 2], [3, 4]]).flatten
          (sat 1 (-1) 32 [[1, 2], [3, 4]] 2 2 1 0 BorderType.zero).1.flatten
            = (0, 0)) :=
  ⟨⟨by norm_num, by norm_num⟩,
    C1_sat_gpu_matches_reference 1 (-1) [[1, 2], [3, 4]] 2 2 1 BorderType.zero
      (by norm_num) (by norm_num) (by norm_num) (by norm_num)⟩

/-- C2. For a 4×4 input image whose samples are all 1 and border
extent 0, the pipeline's SAT output at every position (r,c) equals
(r+1)·(c+1), and the run's reported max absolute error and max relative
error are both exactly 0. -/
theorem C2_all_ones_scenario :
    (∀ r, r < 4 → ∀ c, c < 4 →
      (((main_model 4 4 ones4 ones4 1 0 BorderType.zero (0, 0)).gpuOut.getD r
          []).getD c 0)
        = ((r : ℚ) + 1) * ((c : ℚ) + 1))
    ∧ (main_model 4 4 ones4 ones4 1 0 BorderType.zero (0, 0)).me = 0
    ∧ (main_model 4 4 ones4 ones4 1 0 BorderType.zero (0, 0)).mre = 0 := by
  have hgpu : (main_model 4 4 ones4 ones4 1 0 BorderType.zero (0, 0)).gpuOut
      = satTable := by
    show (sat 1 (-1) 32 ones4 4 4 1 0 BorderType.zero).1 = satTable
    have : (sat 1 (-1) 32 ones4 4 4 1 0 BorderType.zero).1
        = sat_gpu 1 (-1) 32 4 4 ones4 := by simp [sat]
    rw [this, sat_gpu_eq_ref, ref_sat_cpu_ones4]
  have hcpu : (main_model 4 4 ones4 ones4 1 0 BorderType.zero (0, 0)).cpuOut
      = satTable := ref_sat_cpu_ones4
  have herr : (main_model 4 4 ones4 ones4 1 0 BorderType.zero (0, 0)).me = 0
      ∧ (main_model 4 4 ones4 ones4 1 0 BorderType.zero (0, 0)).mre = 0 := by
    have h1 : (main_model 4 4 ones4 ones4 1 0 BorderType.zero (0, 0)).me
        = (check_cpu_reference
            (main_model 4 4 ones4 ones4 1 0 BorderType.zero (0, 0)).cpuOut.flatten
            (main_model 4 4 ones4 ones4 1 0 BorderType.zero (0, 0)).gpuOut.flatten).1 :=
      rfl
    have h2 : (main_model 4 4 ones4 ones4 1 0 BorderType.zero (0, 0)).mre
        = (check_cpu_reference
            (main_model 4 4 ones4 ones4 1 0 BorderType.zero (0, 0)).cpuOut.flatten
            (main_model 4 4 ones4 ones4 1 0 BorderType.zero (0, 0)).gpuOut.flatten).2 :=
      rfl
    rw [h1, h2, hgpu, hcpu, check_cpu_reference_self]
    exact ⟨rfl, rfl⟩
  refine ⟨?_, herr⟩
  intro r hr c hc
  rw [hgpu]
  interval_cases r <;> interval_cases c <;> norm_num [satTable]

/-- Witness for C2 at position (1, 2). -/
theorem C2_all_ones_scenario_witness :
    1 < 4 ∧ 2 < 4
    ∧ (((main_model 4 4 ones4 ones4 1 0 BorderType.zero (0, 0)).gpuOut.getD 1
        []).getD 2 0)
      = (((1 : ℕ) : ℚ) + 1) * (((2 : ℕ) : ℚ) + 1) :=
  ⟨by norm_num, by norm_num,
    C2_all_ones_scenario.1 1 (by norm_num) 2 (by norm_num)⟩

/-- C3 counterexample. At border extent −1 the driver does not fail
fast and raises no configuration-error signal: neither engine branch is
dispatched, yet the run continues through the checker, prints the error
scalars normally and exits with status 0 — the invalid extent is
silently ignored, contradicting the claim. -/
theorem C3_counterexample_no_failfast :
    (main_model 2 2 [[1, 2], [3, 4]] [[1, 2], [3, 4]] 2 (-1)
        BorderType.zero (0, 0)).dispatched = none
    ∧ (main_model 2 2 [[1, 2], [3, 4]] [[1, 2], [3, 4]] 2 (-1)
        BorderType.zero (0, 0)).exitCode = 0
    ∧ (main_model 2 2 [[1, 2], [3, 4]] [[1, 2], [3, 4]] 2 (-1)
        BorderType.zero (0, 0)).output
      = [OutputEvent.errors
          (main_model 2 2 [[1, 2], [3, 4]] [[1, 2], [3, 4]] 2 (-1)
            BorderType.zero (0, 0)).me
          (main_model 2 2 [[1, 2], [3, 4]] [[1, 2], [3, 4]] 2 (-1)
            BorderType.zero (0, 0)).mre] := by
  refine ⟨?_, rfl, ?_⟩
  · show (sat 1 (-1) 32 [[1, 2], [3, 4]] 2 2 2 (-1) BorderType.zero).2 = none
    simp [sat]
  · show (if (2 : ℤ) = 1 then [OutputEvent.info] else [])
        ++ (if (2 : ℤ) = 1 then [OutputEvent.header] else []) ++ _ = _
    norm_num
    exact ⟨rfl, rfl⟩

/-- C3 as amended: for a negative border extent the driver dispatches
neither `sat_gpu` branch and performs no filtering work, but it raises
no configuration-error signal: the buffer is passed through unchanged,
the checker and reporting still run, and the process exits 0 — the
out-of-range configuration is silently ignored rather than rejected. -/
theorem C3_amended_silently_ignored (w h : ℕ) (ci gi : List (List ℚ))
    (rt border : ℤ) (bt : BorderType) (wi : ℚ × ℚ) (hneg : border < 0) :
    (main_model w h ci gi rt border bt wi).dispatched = none
    ∧ (main_model w h ci gi rt border bt wi).gpuOut = gi
    ∧ (main_model w h ci gi rt border bt wi).exitCode = 0 := by
  have h0 : ¬ border = 0 := by omega
  have h1 : ¬ border > 0 := by omega
  refine ⟨?_, ?_, rfl⟩
  · show (sat 1 (-1) 32 gi w h rt border bt).2 = none
    simp [sat, h0, h1]
  · show (sat 1 (-1) 32 gi w h rt border bt).1 = gi
    simp [sat, h0, h1]

/-- Witness for the amended C3 at border −1. -/
theorem C3_amended_silently_ignored_witness :
    (-1 : ℤ) < 0
    ∧ ((main_model 1 1 [[7]] [[7]] 1 (-1) BorderType.clamp (0, 0)).dispatched
          = none
      ∧ (main_model 1 1 [[7]] [[7]] 1 (-1) BorderType.clamp (0, 0)).gpuOut = [[7]]
      ∧ (main_model 1 1 [[7]] [[7]] 1 (-1) BorderType.clamp (0, 0)).exitCode
          = 0) :=
  ⟨by norm_num,
    C3_amended_silently_ignored 1 1 [[7]] [[7]] 1 (-1) BorderType.clamp (0, 0)
      (by norm_num)⟩

/-- C4. In every run of the driver, the weight vector passed to both
the reference engine and the accelerated engine is (1, −1), regardless
of what values `initial_setup` placed in it (the `wInit` argument is
arbitrary and ignored by the assignment `w[0] = 1.; w[1] = -1.`). -/
theorem C4_weights_fixed (w h : ℕ) (ci gi : List (List ℚ)) (rt border : ℤ)
    (bt : BorderType) (wInit : ℚ × ℚ) :
    (main_model w h ci gi rt border bt wInit).wRef = (1, -1)
    ∧ (main_model w h ci gi rt border bt wInit).wSat = (1, -1)
    ∧ (main_model w h ci gi rt border bt wInit).wRef
        = (main_model w h ci gi rt border bt wInit).wSat :=
  ⟨rfl, rfl, rfl⟩

/-- C5. For every input configuration, the process exit status is 0: no
error magnitude reported by `check_cpu_reference`, however large, causes
a nonzero exit (the embedded driver has no assertion or exception
outcome at all — its only result channel is `DriverRun`). -/
theorem C5_exit_always_zero (w h : ℕ) (ci gi : List (List ℚ)) (rt border : ℤ)
    (bt : BorderType) (wi : ℚ × ℚ) :
    (main_model w h ci gi rt border bt wi).exitCode = 0 :=
  rfl

/-- C6. `check_cpu_reference`, applied to reference buffer `cpu` and
accelerated buffer `gpu` of equal length, returns as its first scalar
the maximum over all pixels of `|gpu − cpu|` and as its second scalar
the maximum over all pixels with `|cpu| > 0` of `|gpu − cpu| / |cpu|`:
each scalar bounds the corresponding per-pixel quantity from above and,
unless it is 0 (the starting accumulator, reported when no pixel
contributes), is attained at some pixel. -/
theorem C6_check_cpu_reference_maxima (cpu gpu : List ℚ)
    (h : cpu.length = gpu.length) :
    (∀ i, i < cpu.length →
        |gpu.getD i 0 - cpu.getD i 0| ≤ (check_cpu_reference cpu gpu).1)
    ∧ ((check_cpu_reference cpu gpu).1 = 0
        ∨ ∃ i, i < cpu.length
            ∧ (check_cpu_reference cpu gpu).1 = |gpu.getD i 0 - cpu.getD i 0|)
    ∧ (∀ i, i < cpu.length → 0 < |cpu.getD i 0| →
        |gpu.getD i 0 - cpu.getD i 0| / |cpu.getD i 0|
          ≤ (check_cpu_reference cpu gpu).2)
    ∧ ((check_cpu_reference cpu gpu).2 = 0
        ∨ ∃ i, i < cpu.length ∧ 0 < |cpu.getD i 0|
            ∧ (check_cpu_reference cpu gpu).2
                = |gpu.getD i 0 - cpu.getD i 0| / |cpu.getD i 0|) := by
  have hzl : (cpu.zip gpu).length = cpu.length := by
    rw [List.length_zip, h, min_self]
  have hmem : ∀ i, i < cpu.length → (cpu.getD i 0, gpu.getD i 0) ∈ cpu.zip gpu := by
    intro i hi
    have hi2 : i < gpu.length := h ▸ hi
    have hiz : i < (cpu.zip gpu).length := by rw [hzl]; exact hi
    have hm := List.getElem_mem hiz
    rw [List.getElem_zip] at hm
    rwa [List.getD_eq_getElem cpu 0 hi, List.getD_eq_getElem gpu 0 hi2]
  have hmem2 : ∀ p ∈ cpu.zip gpu, ∃ i, i < cpu.length
      ∧ p.1 = cpu.getD i 0 ∧ p.2 = gpu.getD i 0 := by
    intro p hp
    obtain ⟨i, hiz, hip⟩ := List.mem_iff_getElem.mp hp
    rw [hzl] at hiz
    have hi2 : i < gpu.length := h ▸ hiz
    refine ⟨i, hiz, ?_, ?_⟩
    · rw [List.getD_eq_getElem cpu 0 hiz, ← hip, List.getElem_zip]
    · rw [List.getD_eq_getElem gpu 0 hi2, ← hip, List.getElem_zip]
  refine ⟨?_, ?_, ?_, ?_⟩
  · intro i hi
    exact (check_loop_ub (cpu.zip gpu) 0 0 _ (hmem i hi)).1
  · rcases (check_loop_attain (cpu.zip gpu) 0 0).1 with h0 | ⟨p, hp, hval⟩
    · exact Or.inl h0
    · obtain ⟨i, hi, h1, h2⟩ := hmem2 p hp
      exact Or.inr ⟨i, hi, by rw [← h1, ← h2]; exact hval⟩
  · intro i hi hc
    exact (check_loop_ub (cpu.zip gpu) 0 0 _ (hmem i hi)).2 hc
  · rcases (check_loop_attain (cpu.zip gpu) 0 0).2 with h0 | ⟨p, hp, hcp, hval⟩
    · exact Or.inl h0
    · obtain ⟨i, hi, h1, h2⟩ := hmem2 p hp
      refine Or.inr ⟨i, hi, ?_, ?_⟩
      · rw [← h1]; exact hcp
      · rw [← h1, ← h2]; exact hval

/-- Witness for C6 on the concrete buffers cpu = [2], gpu = [5]. -/
theorem C6_check_cpu_reference_maxima_witness :
    ([2] : List ℚ).length = ([5] : List ℚ).length
    ∧ ((∀ i, i < ([2] : List ℚ).length →
        |([5] : List ℚ).getD i 0 - ([2] : List ℚ).getD i 0|
          ≤ (check_cpu_reference [2] [5]).1)
      ∧ ((check_cpu_reference [2] [5]).1 = 0
          ∨ ∃ i, i < ([2] : List ℚ).length
              ∧ (check_cpu_reference [2] [5]).1
                  = |([5] : List ℚ).getD i 0 - ([2] : List ℚ).getD i 0|)
      ∧ (∀ i, i < ([2] : List ℚ).length → 0 < |([2] : List ℚ).getD i 0| →
          |([5] : List ℚ).getD i 0 - ([2] : List ℚ).getD i 0|
              / |([2] : List ℚ).getD i 0|
            ≤ (check_cpu_reference [2] [5]).2)
      ∧ ((check_cpu_reference [2] [5]).2 = 0
          ∨ ∃ i, i < ([2] : List ℚ).length ∧ 0 < |([2] : List ℚ).getD i 0|
              ∧ (check_cpu_reference [2] [5]).2
                  = |([5] : List ℚ).getD i 0 - ([2] : List ℚ).getD i 0|
                      / |([2] : List ℚ).getD i 0|)) :=
  ⟨rfl, C6_check_cpu_reference_maxima [2] [5] rfl⟩

/-- C7. For each border type, the border policy evaluated at in-range
offset 0 returns the stored pixel value exactly, and evaluated at
offset −1 returns: 0 for zero, pixel[0] for clamp, pixel[W−1] for
repeat, and pixel[1] for reflect (the reflect case requires W ≥ 2). -/
theorem C7_border_policy_roundtrip (bt : BorderType) (pix : List ℚ)
    (hW : 2 ≤ pix.length) :
    lookAt bt pix 0 = pix.getD 0 0
    ∧ lookAt BorderType.zero pix (-1) = 0
    ∧ lookAt BorderType.clamp pix (-1) = pix.getD 0 0
    ∧ lookAt BorderType.repeatB pix (-1) = pix.getD (pix.length - 1) 0
    ∧ lookAt BorderType.reflect pix (-1) = pix.getD 1 0 := by
  have hWpos : (0 : ℤ) < pix.length := by exact_mod_cast Nat.lt_of_lt_of_le Nat.zero_lt_two hW
  have hneg : ¬ (0 ≤ (-1 : ℤ) ∧ (-1 : ℤ) < (pix.length : ℤ)) := by omega
  have hemod : ∀ b : ℤ, 0 < b → (-1 : ℤ) % b = b - 1 := by
    intro b hb
    have h1 : (-1 : ℤ) = (b - 1) + b * (-1) := by ring
    rw [h1, Int.add_mul_emod_self_left, Int.emod_eq_of_lt (by omega) (by omega)]
  refine ⟨?_, ?_, ?_, ?_, ?_⟩
  · simp only [lookAt]
    rw [if_pos ⟨le_refl (0 : ℤ), hWpos⟩]
    rfl
  · simp only [lookAt]
    rw [if_neg hneg]
  · simp only [lookAt]
    rw [if_neg hneg]
    have : (max 0 (min ((pix.length : ℤ) - 1) (-1))).toNat = 0 := by omega
    rw [this]
  · simp only [lookAt]
    rw [if_neg hneg, hemod _ hWpos]
    have : ((pix.length : ℤ) - 1).toNat = pix.length - 1 := by omega
    rw [this]
  · simp only [lookAt]
    rw [if_neg hneg]
    have hrefl : reflectIndex (pix.length : ℤ) (-1) = 1 := by
      unfold reflectIndex
      rw [if_neg (by omega : ¬ (pix.length : ℤ) ≤ 1)]
      have hper : (0 : ℤ) < 2 * (pix.length : ℤ) - 2 := by omega
      simp only [hemod _ hper]
      split_ifs <;> omega
    rw [hrefl]
    rfl

/-- Witness for C7 on the pixel row [5, 7, 9]. -/
theorem C7_border_policy_roundtrip_witness :
    2 ≤ ([5, 7, 9] : List ℚ).length
    ∧ (lookAt BorderType.repeatB [5, 7, 9] 0 = ([5, 7, 9] : List ℚ).getD 0 0
      ∧ lookAt BorderType.zero [5, 7, 9] (-1) = 0
      ∧ lookAt BorderType.clamp [5, 7, 9] (-1) = ([5, 7, 9] : List ℚ).getD 0 0
      ∧ lookAt BorderType.repeatB [5, 7, 9] (-1)
          = ([5, 7, 9] : List ℚ).getD (([5, 7, 9] : List ℚ).length - 1) 0
      ∧ lookAt BorderType.reflect [5, 7, 9] (-1)
          = ([5, 7, 9] : List ℚ).getD 1 0) :=
  ⟨by norm_num,
    C7_border_policy_roundtrip BorderType.repeatB [5, 7, 9] (by norm_num)⟩

/-- C8. When the repetition count is 1 the driver prints the
configuration (`print_info`), then the header, then the two error
scalars; when the repetition count is not 1 the only output is the two
error scalars. -/
theorem C8_output_shape (w h : ℕ) (ci gi : List (List ℚ)) (rt border : ℤ)
    (bt : BorderType) (wi : ℚ × ℚ) :
    (rt = 1 → (main_model w h ci gi rt border bt wi).output
        = [OutputEvent.info, OutputEvent.header,
            OutputEvent.errors (main_model w h ci gi rt border bt wi).me
              (main_model w h ci gi rt border bt wi).mre])
    ∧ (rt ≠ 1 → (main_model w h ci gi rt border bt wi).output
        = [OutputEvent.errors (main_model w h ci gi rt border bt wi).me
            (main_model w h ci gi rt border bt wi).mre]) := by
  constructor
  · intro h1
    subst h1
    simp [main_model]
  · intro h1
    simp [main_model, if_neg h1]

/-- Witness for C8 at repetition counts 1 and 2. -/
theorem C8_output_shape_witness :
    (main_model 1 1 [[3]] [[3]] 1 0 BorderType.zero (0, 0)).output
      = [OutputEvent.info, OutputEvent.header,
          OutputEvent.errors (main_model 1 1 [[3]] [[3]] 1 0 BorderType.zero (0, 0)).me
            (main_model 1 1 [[3]] [[3]] 1 0 BorderType.zero (0, 0)).mre]
    ∧ (main_model 1 1 [[3]] [[3]] 2 0 BorderType.zero (0, 0)).output
      = [OutputEvent.errors (main_model 1 1 [[3]] [[3]] 2 0 BorderType.zero (0, 0)).me
          (main_model 1 1 [[3]] [[3]] 2 0 BorderType.zero (0, 0)).mre] :=
  ⟨(C8_output_shape 1 1 [[3]] [[3]] 1 0 BorderType.zero (0, 0)).1 rfl,
    (C8_output_shape 1 1 [[3]] [[3]] 2 0 BorderType.zero (0, 0)).2 (by norm_num)⟩

/-- C9. When border extent is exactly 0, the accelerated result is
independent of the border type: for any two border types and otherwise
identical inputs, `sat` produces identical results, because the border
type is never passed to the border-0 path (`sat_gpu<false>`). -/
theorem C9_border0_independent_of_btype (a0 b1 : ℚ) (T : ℕ)
    (img : List (List ℚ)) (w h : ℕ) (rt : ℤ) (bt1 bt2 : BorderType) :
    sat a0 b1 T img w h rt 0 bt1 = sat a0 b1 T img w h rt 0 bt2 :=
  rfl

/-- C10. For every call of `sat` with a strictly negative border
extent, neither `sat_gpu` branch is taken: the function performs no
computation and returns with the image buffer unchanged. -/
theorem C10_negative_border_no_work (a0 b1 : ℚ) (T : ℕ)
    (img : List (List ℚ)) (w h : ℕ) (rt border : ℤ) (bt : BorderType)
    (hneg : border < 0) :
    sat a0 b1 T img w h rt border bt = (img, none) := by
  have h0 : ¬ border = 0 := by omega
  have h1 : ¬ border > 0 := by omega
  simp [sat, h0, h1]

/-- Witness for C10 at border −1. -/
theorem C10_negative_border_no_work_witness :
    (-1 : ℤ) < 0
    ∧ sat 1 (-1) 32 [[5]] 1 1 1 (-1) BorderType.clamp = ([[5]], none) :=
  ⟨by norm_num,
    C10_negative_border_no_work 1 (-1) 32 [[5]] 1 1 1 (-1) BorderType.clamp
      (by norm_num)⟩

end GpuFilter
